import Mathlib

/-!
Verification of the Gradebook Analyzer engine (`gradebok.py`).

The engine operates on a `Roster`: an ordered mapping from student name to
integer mark, realised in Python as a `dict` (insertion-ordered, unique keys).
We embed a roster as a `List (String × Int)`; Python dict assignment
`d[k] = v` becomes `pyInsert`, which updates an existing key in place
(keeping its original position) or appends a fresh key at the end.
Python's true division `/` on integers is embedded as exact `Rat` division.
-/

set_option maxHeartbeats 1000000

/-- Source constant `PASS_THRESHOLD = 40`. -/
def PASS_THRESHOLD : Int := 40

/-- A roster: ordered list of (student name, mark) pairs, mirroring a Python
dict's insertion-ordered items. -/
abbrev Roster := List (String × Int)

/-- Python `marks_dict.values()`: the marks in roster order. -/
def scores (marks_dict : Roster) : List Int := marks_dict.map Prod.snd

/-- Python `marks_dict.keys()`: the names in roster order. -/
def rkeys (marks_dict : Roster) : List String := marks_dict.map Prod.fst

/-- Python dict assignment `d[k] = v` on an insertion-ordered association
list: if `k` is already a key, its value is replaced in place (the entry
keeps its original position); otherwise `(k, v)` is appended at the end. -/
def pyInsert {β : Type} (d : List (String × β)) (k : String) (v : β) :
    List (String × β) :=
  if d.any (fun p => p.1 == k) then
    d.map (fun p => if p.1 = k then (k, v) else p)
  else d ++ [(k, v)]

/-- Source `calculate_average`: `sum(marks_dict.values()) /
len(marks_dict)`, returning `0.0` on the empty roster. -/
def calculate_average (marks_dict : Roster) : Rat :=
  if marks_dict = [] then 0
  else ((scores marks_dict).sum : Rat) / (marks_dict.length : Rat)

/-- CPython `statistics.median`: sort the data ascending; for odd
length return the middle element, for even length the mean of the two
middle elements. Only applied to non-empty data by the source (the empty
case raises in Python and is guarded by `calculate_median`). -/
def median_stat (data : List Int) : Rat :=
  let s := List.insertionSort (· ≤ ·) data
  let n := s.length
  if n % 2 = 1 then ((s.getD (n / 2) 0 : Int) : Rat)
  else (((s.getD (n / 2 - 1) 0 + s.getD (n / 2) 0 : Int)) : Rat) / 2

/-- Source `calculate_median`: `median(list(marks_dict.values()))`,
returning `0.0` on the empty roster. -/
def calculate_median (marks_dict : Roster) : Rat :=
  if marks_dict = [] then 0 else median_stat (scores marks_dict)

/-- Python `max` over a non-empty iterable: left fold of binary max starting
from the first element. (Python raises on an empty iterable; the source only
calls this on non-empty rosters, so the `[]` case here is unreachable.) -/
def pymax (l : List Int) : Int :=
  match l with
  | [] => 0
  | x :: xs => xs.foldl max x

/-- Python `min` over a non-empty iterable, analogous to `pymax`. -/
def pymin (l : List Int) : Int :=
  match l with
  | [] => 0
  | x :: xs => xs.foldl min x

/-- Source `find_max_score`: on the empty roster return
`("N/A", 0)`; otherwise take `max_mark = max(values)` and return the first
`(name, mark)` entry with `mark == max_mark` (Python's
`next(name for name, mark in items if mark == max_mark)`; the `none` branch
is unreachable since the maximum is attained). -/
def find_max_score (marks_dict : Roster) : String × Int :=
  match marks_dict with
  | [] => ("N/A", 0)
  | _ =>
    let max_mark := pymax (scores marks_dict)
    match marks_dict.find? (fun p => p.2 == max_mark) with
    | some p => (p.1, max_mark)
    | none => ("N/A", 0)

/-- Source `find_min_score`, symmetric to `find_max_score`. -/
def find_min_score (marks_dict : Roster) : String × Int :=
  match marks_dict with
  | [] => ("N/A", 0)
  | _ =>
    let min_mark := pymin (scores marks_dict)
    match marks_dict.find? (fun p => p.2 == min_mark) with
    | some p => (p.1, min_mark)
    | none => ("N/A", 0)

/-- Source `assign_grade`: the highest-to-lowest boundary chain
`score >= 90 → "A"`, `>= 80 → "B"`, `>= 70 → "C"`, `>= 60 → "D"`,
else `"F"`. No range check is performed. -/
def assign_grade (score : Int) : String :=
  if score ≥ 90 then "A"
  else if score ≥ 80 then "B"
  else if score ≥ 70 then "C"
  else if score ≥ 60 then "D"
  else "F"

/-- The initial distribution dict `{"A": 0, "B": 0, "C": 0, "D": 0, "F": 0}`. -/
def initDist : List (String × Nat) :=
  [("A", 0), ("B", 0), ("C", 0), ("D", 0), ("F", 0)]

/-- Update `distribution[grade] += 1`: increment the count at key `grade`.
(In Python a missing key would raise `KeyError`; `assign_grade` always
returns one of the five keys, so the in-place map is faithful.) -/
def bumpDist (d : List (String × Nat)) (g : String) : List (String × Nat) :=
  d.map (fun p => if p.1 = g then (p.1, p.2 + 1) else p)

/-- One iteration of the loop in `generate_grades_and_distribution`:
`grades_dict[name] = assign_grade(mark); distribution[grade] += 1`. -/
def gradeStep (acc : List (String × String) × List (String × Nat))
    (p : String × Int) : List (String × String) × List (String × Nat) :=
  let grade := assign_grade p.2
  (pyInsert acc.1 p.1 grade, bumpDist acc.2 grade)

/-- Source `generate_grades_and_distribution`: fold over the roster
building the grade dict and the distribution counts. -/
def generate_grades_and_distribution (marks_dict : Roster) :
    List (String × String) × List (String × Nat) :=
  marks_dict.foldl gradeStep ([], initDist)

/-- Source `filter_pass_fail`: names with `score >= PASS_THRESHOLD`
(in roster order) and names with `score < PASS_THRESHOLD` (in roster order). -/
def filter_pass_fail (marks_dict : Roster) : List String × List String :=
  ((marks_dict.filter (fun p => p.2 ≥ PASS_THRESHOLD)).map Prod.fst,
   (marks_dict.filter (fun p => p.2 < PASS_THRESHOLD)).map Prod.fst)

/-- Python's whitespace test for `str.strip()` (the ASCII whitespace
characters; `strip` also removes other Unicode whitespace, which does not
occur in the data handled here). -/
def isSpaceChar (c : Char) : Bool :=
  c = ' ' ∨ c = '\t' ∨ c = '\n' ∨ c = '\r' ∨ c = '\x0b' ∨ c = '\x0c'

/-- Remove leading and trailing whitespace from a character list. -/
def stripChars (l : List Char) : List Char :=
  ((l.dropWhile isSpaceChar).reverse.dropWhile isSpaceChar).reverse

/-- Python `s.strip()`. -/
def pyStrip (s : String) : String := String.mk (stripChars s.data)

/-- Value of a decimal digit character, `none` for non-digits. -/
def digitVal (c : Char) : Option Nat :=
  if '0' ≤ c ∧ c ≤ '9' then some (c.toNat - '0'.toNat) else none

/-- Evaluate a non-empty all-digit character list as a natural number;
`none` if the list is empty or holds a non-digit. -/
def digitsVal (l : List Char) : Option Nat :=
  if l = [] then none
  else
    l.foldl
      (fun acc c =>
        match acc, digitVal c with
        | some n, some d => some (n * 10 + d)
        | _, _ => none)
      (some 0)

/-- Python `int(s)` on a stripped string: an optional sign followed by one
or more decimal digits; `none` models the `ValueError` path. (Python also
accepts underscores between digits; no such input occurs here.) -/
def parseIntChars (l : List Char) : Option Int :=
  match l with
  | '-' :: rest => (digitsVal rest).map (fun n => -(n : Int))
  | '+' :: rest => (digitsVal rest).map (fun n => (n : Int))
  | _ => (digitsVal l).map (fun n => (n : Int))

/-- Python `int(s)` including the leading/trailing-whitespace tolerance of
`int` itself (the source additionally calls `.strip()` first, which makes
no difference). -/
def pyInt (s : String) : Option Int := parseIntChars (stripChars s.data)

/-- Loop body of `import_csv_data` for one row (after the header): a row with
at least two fields has `name = row[0].strip()` and `mark =
int(row[1].strip())`; if the mark parses and lies in `[0, 100]` it is stored
with `marks[name] = mark`, otherwise the row is skipped (with a warning). -/
def process_row (marks : List (String × Int)) (row : List String) :
    List (String × Int) :=
  if 2 ≤ row.length then
    let name := pyStrip (row.headD "")
    match pyInt (row.getD 1 "") with
    | some mark =>
        if 0 ≤ mark ∧ mark ≤ 100 then pyInsert marks name mark else marks
    | none => marks
  else marks

/-- Source `import_csv_data`, over the parsed CSV rows: the first
row is the header and is always skipped; the remaining rows are folded
through `process_row` starting from the empty dict. -/
def import_csv_rows (rows : List (List String)) : List (String × Int) :=
  match rows with
  | [] => []
  | _ :: rest => rest.foldl process_row []

/-- Roster validity per the spec's data model: identifiers are unique
(Python dict keys) and every score lies in `[0, 100]`. -/
def ValidRoster (marks_dict : Roster) : Prop :=
  (rkeys marks_dict).Nodup ∧ ∀ p ∈ marks_dict, 0 ≤ p.2 ∧ p.2 ≤ 100

/-- Python dict read `d[k]` (as an option): the value of the unique entry
with key `k`, if any. -/
def dictLookup {β : Type} (d : List (String × β)) (k : String) : Option β :=
  (d.find? (fun p => p.1 == k)).map Prod.snd

/-- The end-to-end scenario roster from the spec (also the dummy CSV data
suggested in the source's comments), in its insertion order. -/
def demoRoster : Roster :=
  [("Alice", 78), ("Bob", 92), ("Charlie", 65), ("Diana", 83),
   ("Evan", 55), ("Fiona", 95), ("George", 39), ("Helen", 72)]

example : assign_grade 90 = "A" := by decide
example : assign_grade 89 = "B" := by decide
example : calculate_average [("a", 1), ("b", 2)] = 3/2 := rfl
example : calculate_median [("a", 60), ("b", 70), ("c", 80), ("d", 90)] = 75 := by
  norm_num [calculate_median, median_stat, scores, List.insertionSort,
    List.orderedInsert]
  decide
example : find_max_score [("A", 90), ("B", 90), ("C", 40)] = ("A", 90) := by
  decide
example :
    import_csv_rows [["Name", "Mark"], ["A", "1"], ["B", "2"], ["A", "3"]] =
      [("A", 3), ("B", 2)] := by decide
example :
    generate_grades_and_distribution [("x", 95), ("y", 59)] =
      ([("x", "A"), ("y", "F")],
       [("A", 1), ("B", 0), ("C", 0), ("D", 0), ("F", 1)]) := by decide
example : filter_pass_fail [("x", 40), ("y", 39)] = (["x"], ["y"]) := by decide

lemma assign_grade_mem (score : Int) :
    assign_grade score ∈ (["A", "B", "C", "D", "F"] : List String) := by
  unfold assign_grade
  split_ifs <;> simp

/-- C1: for every integer score in [0,100], `assign_grade` returns the
letter of the step function evaluated from highest boundary to lowest:
`score ≥ 90 → "A"`, `80 ≤ score < 90 → "B"`, `70 ≤ score < 80 → "C"`,
`60 ≤ score < 70 → "D"`, `score < 60 → "F"`; in particular
`assign_grade 90 = "A"`, `assign_grade 89 = "B"`, `assign_grade 60 = "D"`
and `assign_grade 59 = "F"`. -/
theorem assign_grade_step_function (score : Int)
    (h0 : 0 ≤ score) (h1 : score ≤ 100) :
    (90 ≤ score → assign_grade score = "A") ∧
    (80 ≤ score ∧ score < 90 → assign_grade score = "B") ∧
    (70 ≤ score ∧ score < 80 → assign_grade score = "C") ∧
    (60 ≤ score ∧ score < 70 → assign_grade score = "D") ∧
    (score < 60 → assign_grade score = "F") ∧
    assign_grade 90 = "A" ∧ assign_grade 89 = "B" ∧
    assign_grade 60 = "D" ∧ assign_grade 59 = "F" := by
  refine ⟨?_, ?_, ?_, ?_, ?_, by decide, by decide, by decide, by decide⟩ <;>
    intro h <;> unfold assign_grade <;>
    split_ifs <;> first | rfl | (exfalso; omega)

/-- Witness for `assign_grade_step_function` at score 85. -/
theorem assign_grade_step_function_witness :
    (0 ≤ (85 : Int)) ∧ ((85 : Int) ≤ 100) ∧ assign_grade 85 = "B" :=
  ⟨by decide, by decide,
    (assign_grade_step_function 85 (by decide) (by decide)).2.1 (by decide)⟩

/-- C10: `assign_grade` is total over all integers: it always returns one
of the five letters, every score below 0 yields `"F"`, and every score
above 100 yields `"A"` (no range check is performed). -/
theorem assign_grade_total (score : Int) :
    assign_grade score ∈ (["A", "B", "C", "D", "F"] : List String) ∧
    (score < 0 → assign_grade score = "F") ∧
    (100 < score → assign_grade score = "A") := by
  refine ⟨assign_grade_mem score, ?_, ?_⟩ <;>
    intro h <;> unfold assign_grade <;>
    split_ifs <;> first | rfl | (exfalso; omega)

/-- Witness for `assign_grade_total` at the out-of-range scores -5 and 150. -/
theorem assign_grade_total_witness :
    assign_grade (-5) = "F" ∧ assign_grade 150 = "A" :=
  ⟨(assign_grade_total (-5)).2.1 (by decide),
   (assign_grade_total 150).2.2 (by decide)⟩

/-- C5: on the empty roster every analysis returns its documented sentinel:
`calculate_average` and `calculate_median` return 0, `find_max_score` and
`find_min_score` return `("N/A", 0)`, the distribution has all five counts
zero, and `filter_pass_fail` returns `([], [])`. -/
theorem empty_roster_sentinels :
    calculate_average [] = 0 ∧
    calculate_median [] = 0 ∧
    find_max_score [] = ("N/A", 0) ∧
    find_min_score [] = ("N/A", 0) ∧
    (generate_grades_and_distribution []).2 =
      [("A", 0), ("B", 0), ("C", 0), ("D", 0), ("F", 0)] ∧
    filter_pass_fail [] = ([], []) :=
  ⟨rfl, rfl, rfl, rfl, rfl, rfl⟩

/-- C7: for every roster, the sum of the scores equals the average times
the number of entries (exactly, over the rationals); on a non-empty roster
the average is exactly the rational `sum / length`; and the average of the
empty roster is 0. -/
theorem average_sum_identity (marks_dict : Roster) :
    ((scores marks_dict).sum : Rat) =
      calculate_average marks_dict * marks_dict.length ∧
    (marks_dict ≠ [] →
      calculate_average marks_dict =
        ((scores marks_dict).sum : Rat) / (marks_dict.length : Rat)) ∧
    calculate_average [] = 0 := by
  refine ⟨?_, fun h => by unfold calculate_average; rw [if_neg h], rfl⟩
  by_cases h : marks_dict = []
  · subst h; simp [calculate_average, scores]
  · have hlen : (marks_dict.length : Rat) ≠ 0 := by
      have h0 : marks_dict.length ≠ 0 := by
        simpa [List.length_eq_zero] using h
      exact_mod_cast h0
    unfold calculate_average
    rw [if_neg h]
    exact (div_mul_cancel₀ _ hlen).symm

/-- Witness for `average_sum_identity` on the roster `[("a",1), ("b",2)]`. -/
theorem average_sum_identity_witness :
    ((scores [("a", 1), ("b", 2)]).sum : Rat) =
      calculate_average [("a", 1), ("b", 2)] * 2 ∧
    calculate_average [("a", 1), ("b", 2)] =
      ((scores [("a", 1), ("b", 2)]).sum : Rat) / 2 :=
  ⟨(average_sum_identity [("a", 1), ("b", 2)]).1,
   (average_sum_identity [("a", 1), ("b", 2)]).2.1 (by decide)⟩

lemma roster_key_inj {l : Roster} (h : (rkeys l).Nodup) :
    ∀ ⦃p⦄, p ∈ l → ∀ ⦃q⦄, q ∈ l → p.1 = q.1 → p = q :=
  fun _ hp _ hq he => List.inj_on_of_nodup_map h hp hq he

lemma length_filter_threshold (l : Roster) :
    (filter_pass_fail l).1.length + (filter_pass_fail l).2.length =
      l.length := by
  unfold filter_pass_fail
  simp only [List.length_map]
  induction l with
  | nil => rfl
  | cons a t ih =>
    simp only [List.filter_cons]
    by_cases h : PASS_THRESHOLD ≤ a.2
    · have h2 : ¬a.2 < PASS_THRESHOLD := not_lt.mpr h
      rw [if_pos (by simpa using h), if_neg (by simpa using h2)]
      simp only [List.length_cons]
      omega
    · have h2 : a.2 < PASS_THRESHOLD := not_le.mp h
      rw [if_neg (by simpa using h), if_pos (by simpa using h2)]
      simp only [List.length_cons]
      omega

/-- C4: for every roster (with the data model's unique identifiers),
`filter_pass_fail` is a true partition: an identifier of the roster is in
`passed` iff its score is at least the pass threshold, in `failed` iff its
score is below it; the lengths sum to the roster size; the two lists are
disjoint; and each output list preserves roster insertion order (it is a
sublist of the roster's key sequence). -/
theorem filter_pass_fail_partition (marks_dict : Roster)
    (h : (rkeys marks_dict).Nodup) :
    (∀ p ∈ marks_dict,
      (p.1 ∈ (filter_pass_fail marks_dict).1 ↔ PASS_THRESHOLD ≤ p.2) ∧
      (p.1 ∈ (filter_pass_fail marks_dict).2 ↔ p.2 < PASS_THRESHOLD)) ∧
    (filter_pass_fail marks_dict).1.length +
      (filter_pass_fail marks_dict).2.length = marks_dict.length ∧
    (∀ x ∈ (filter_pass_fail marks_dict).1,
      x ∉ (filter_pass_fail marks_dict).2) ∧
    List.Sublist (filter_pass_fail marks_dict).1 (rkeys marks_dict) ∧
    List.Sublist (filter_pass_fail marks_dict).2 (rkeys marks_dict) := by
  refine ⟨?_, length_filter_threshold marks_dict, ?_, ?_, ?_⟩
  · intro p hp
    constructor
    · constructor
      · intro hmem
        simp only [filter_pass_fail, List.mem_map, List.mem_filter,
          ge_iff_le, decide_eq_true_eq] at hmem
        obtain ⟨q, ⟨hql, hq40⟩, hqp⟩ := hmem
        rwa [roster_key_inj h hql hp hqp] at hq40
      · intro h40
        simp only [filter_pass_fail, List.mem_map, List.mem_filter,
          ge_iff_le, decide_eq_true_eq]
        exact ⟨p, ⟨hp, h40⟩, rfl⟩
    · constructor
      · intro hmem
        simp only [filter_pass_fail, List.mem_map, List.mem_filter,
          decide_eq_true_eq] at hmem
        obtain ⟨q, ⟨hql, hq40⟩, hqp⟩ := hmem
        rwa [roster_key_inj h hql hp hqp] at hq40
      · intro h40
        simp only [filter_pass_fail, List.mem_map, List.mem_filter,
          decide_eq_true_eq]
        exact ⟨p, ⟨hp, h40⟩, rfl⟩
  · intro x hx hx2
    simp only [filter_pass_fail, List.mem_map, List.mem_filter,
      ge_iff_le, decide_eq_true_eq] at hx hx2
    obtain ⟨q, ⟨hql, hq40⟩, hqx⟩ := hx
    obtain ⟨r, ⟨hrl, hr40⟩, hrx⟩ := hx2
    have := roster_key_inj h hql hrl (hqx.trans hrx.symm)
    subst this
    omega
  · exact (List.filter_sublist marks_dict).map Prod.fst
  · exact (List.filter_sublist marks_dict).map Prod.fst

/-- Witness for `filter_pass_fail_partition` on the roster
`[("x", 40), ("y", 39)]`. -/
theorem filter_pass_fail_partition_witness :
    filter_pass_fail [("x", 40), ("y", 39)] = (["x"], ["y"]) ∧
    (filter_pass_fail [("x", 40), ("y", 39)]).1.length +
      (filter_pass_fail [("x", 40), ("y", 39)]).2.length = 2 :=
  ⟨by decide, (filter_pass_fail_partition [("x", 40), ("y", 39)] (by decide)).2.1⟩

lemma bumpDist_keys (d : List (String × Nat)) (g : String) :
    (bumpDist d g).map Prod.fst = d.map Prod.fst := by
  unfold bumpDist
  rw [List.map_map]
  apply List.map_congr_left
  intro p _
  by_cases h : p.1 = g
  · simp [h]
  · simp [h]

lemma bumpDist_sum (d : List (String × Nat)) (g : String) :
    ((bumpDist d g).map Prod.snd).sum =
      (d.map Prod.snd).sum + (d.map Prod.fst).count g := by
  induction d with
  | nil => rfl
  | cons a t ih =>
    by_cases h : a.1 = g
    · have h2 : (g == a.1) = true := beq_iff_eq.mpr h.symm
      have h3 : (a.1 == g) = true := beq_iff_eq.mpr h
      simp only [bumpDist, List.map_cons, if_pos h, List.sum_cons,
        List.count_cons, h2, h3, if_true]
      simp only [bumpDist] at ih
      omega
    · have h2 : (g == a.1) = false :=
        beq_eq_false_iff_ne.mpr (fun hg => h hg.symm)
      have h3 : (a.1 == g) = false := beq_eq_false_iff_ne.mpr h
      simp only [bumpDist, List.map_cons, if_neg h, List.sum_cons,
        List.count_cons, h2, h3, if_false]
      rw [if_neg Bool.false_ne_true]
      simp only [bumpDist] at ih
      omega

lemma pyInsert_fresh {β : Type} (d : List (String × β)) (k : String) (v : β)
    (h : k ∉ d.map Prod.fst) : pyInsert d k v = d ++ [(k, v)] := by
  unfold pyInsert
  rw [if_neg]
  simp only [List.any_eq_true, beq_iff_eq, not_exists, not_and]
  intro p hp he
  exact h (he ▸ List.mem_map_of_mem Prod.fst hp)

lemma foldl_gradeStep_dist_keys (marks : Roster)
    (gd : List (String × String)) (d : List (String × Nat)) :
    ((marks.foldl gradeStep (gd, d)).2).map Prod.fst = d.map Prod.fst := by
  induction marks generalizing gd d with
  | nil => rfl
  | cons a t ih =>
    simp only [List.foldl_cons, gradeStep]
    rw [ih, bumpDist_keys]

lemma foldl_gradeStep_dist_sum (marks : Roster)
    (gd : List (String × String)) (d : List (String × Nat))
    (h : d.map Prod.fst = ["A", "B", "C", "D", "F"]) :
    (((marks.foldl gradeStep (gd, d)).2).map Prod.snd).sum =
      (d.map Prod.snd).sum + marks.length := by
  induction marks generalizing gd d with
  | nil => simp
  | cons a t ih =>
    simp only [List.foldl_cons, gradeStep, List.length_cons]
    rw [ih _ _ (by rw [bumpDist_keys]; exact h)]
    rw [bumpDist_sum, h]
    have hg := assign_grade_mem a.2
    have hcount : (["A", "B", "C", "D", "F"] : List String).count
        (assign_grade a.2) = 1 := by
      simp only [List.mem_cons, List.not_mem_nil, or_false] at hg
      rcases hg with h1 | h1 | h1 | h1 | h1 <;> rw [h1] <;> decide
    rw [hcount]
    omega

lemma foldl_gradeStep_grades_keys (marks : Roster)
    (gd : List (String × String)) (d : List (String × Nat))
    (h : (gd.map Prod.fst ++ marks.map Prod.fst).Nodup) :
    ((marks.foldl gradeStep (gd, d)).1).map Prod.fst =
      gd.map Prod.fst ++ marks.map Prod.fst := by
  induction marks generalizing gd d with
  | nil => simp
  | cons a t ih =>
    simp only [List.foldl_cons, gradeStep]
    have hfresh : a.1 ∉ gd.map Prod.fst := by
      intro hmem
      have := List.disjoint_of_nodup_append h hmem
      simp at this
    rw [ih]
    · rw [pyInsert_fresh _ _ _ hfresh]
      simp
    · rw [pyInsert_fresh _ _ _ hfresh]
      simpa [List.append_assoc] using h

/-- C3: for every roster satisfying the data-model invariant (unique
identifiers, scores in [0,100]), the distribution produced by
`generate_grades_and_distribution` has exactly the five keys A, B, C, D, F
in order (each present even when its count is 0), every count is
non-negative, the counts sum to the number of roster entries, and the
grade assignment has exactly one entry per roster entry. -/
theorem generate_grades_distribution_invariants (marks_dict : Roster)
    (h : ValidRoster marks_dict) :
    ((generate_grades_and_distribution marks_dict).2).map Prod.fst =
      ["A", "B", "C", "D", "F"] ∧
    (∀ c ∈ ((generate_grades_and_distribution marks_dict).2).map Prod.snd,
      0 ≤ c) ∧
    (((generate_grades_and_distribution marks_dict).2).map Prod.snd).sum =
      marks_dict.length ∧
    (generate_grades_and_distribution marks_dict).1.length =
      marks_dict.length := by
  refine ⟨?_, fun c _ => Nat.zero_le c, ?_, ?_⟩
  · exact foldl_gradeStep_dist_keys marks_dict [] initDist
  · unfold generate_grades_and_distribution
    rw [foldl_gradeStep_dist_sum marks_dict [] initDist rfl]
    simp [initDist]
  · have hkeys := foldl_gradeStep_grades_keys marks_dict [] initDist
      (by simpa [rkeys] using h.1)
    have hlen := congrArg List.length hkeys
    unfold generate_grades_and_distribution
    simpa using hlen

/-- Witness for `generate_grades_distribution_invariants` on the roster
`[("x", 95), ("y", 59)]`. -/
theorem generate_grades_distribution_invariants_witness :
    ((generate_grades_and_distribution [("x", 95), ("y", 59)]).2).map
      Prod.fst = ["A", "B", "C", "D", "F"] ∧
    (((generate_grades_and_distribution [("x", 95), ("y", 59)]).2).map
      Prod.snd).sum = 2 :=
  ⟨(generate_grades_distribution_invariants [("x", 95), ("y", 59)]
      ⟨by decide, by decide⟩).1,
   (generate_grades_distribution_invariants [("x", 95), ("y", 59)]
      ⟨by decide, by decide⟩).2.2.1⟩

lemma foldl_max_bounds (xs : List Int) (a : Int) :
    a ≤ xs.foldl max a ∧ ∀ x ∈ xs, x ≤ xs.foldl max a := by
  induction xs generalizing a with
  | nil => simp
  | cons y t ih =>
    refine ⟨le_trans (le_max_left a y) (ih (max a y)).1, ?_⟩
    intro x hx
    rcases List.mem_cons.mp hx with rfl | hx
    · exact le_trans (le_max_right a x) (ih (max a x)).1
    · exact (ih (max a y)).2 x hx

lemma foldl_max_mem (xs : List Int) (a : Int) :
    xs.foldl max a = a ∨ xs.foldl max a ∈ xs := by
  induction xs generalizing a with
  | nil => simp
  | cons y t ih =>
    rw [List.foldl_cons]
    rcases ih (max a y) with h | h
    · rcases max_choice a y with he | he
      · left; rw [h, he]
      · right; rw [h, he]; exact List.mem_cons_self y t
    · right; exact List.mem_cons_of_mem y h

lemma foldl_min_bounds (xs : List Int) (a : Int) :
    xs.foldl min a ≤ a ∧ ∀ x ∈ xs, xs.foldl min a ≤ x := by
  induction xs generalizing a with
  | nil => simp
  | cons y t ih =>
    refine ⟨le_trans (ih (min a y)).1 (min_le_left a y), ?_⟩
    intro x hx
    rcases List.mem_cons.mp hx with rfl | hx
    · exact le_trans (ih (min a x)).1 (min_le_right a x)
    · exact (ih (min a y)).2 x hx

lemma foldl_min_mem (xs : List Int) (a : Int) :
    xs.foldl min a = a ∨ xs.foldl min a ∈ xs := by
  induction xs generalizing a with
  | nil => simp
  | cons y t ih =>
    rw [List.foldl_cons]
    rcases ih (min a y) with h | h
    · rcases min_choice a y with he | he
      · left; rw [h, he]
      · right; rw [h, he]; exact List.mem_cons_self y t
    · right; exact List.mem_cons_of_mem y h

lemma pymax_spec (x : Int) (xs : List Int) :
    pymax (x :: xs) ∈ x :: xs ∧ ∀ y ∈ x :: xs, y ≤ pymax (x :: xs) := by
  have hpm : pymax (x :: xs) = xs.foldl max x := rfl
  rw [hpm]
  constructor
  · rcases foldl_max_mem xs x with h1 | h1
    · rw [h1]; exact List.mem_cons_self x xs
    · exact List.mem_cons_of_mem x h1
  · intro y hy
    rcases List.mem_cons.mp hy with rfl | h1
    · exact (foldl_max_bounds xs y).1
    · exact (foldl_max_bounds xs x).2 y h1

lemma pymin_spec (x : Int) (xs : List Int) :
    pymin (x :: xs) ∈ x :: xs ∧ ∀ y ∈ x :: xs, pymin (x :: xs) ≤ y := by
  have hpm : pymin (x :: xs) = xs.foldl min x := rfl
  rw [hpm]
  constructor
  · rcases foldl_min_mem xs x with h1 | h1
    · rw [h1]; exact List.mem_cons_self x xs
    · exact List.mem_cons_of_mem x h1
  · intro y hy
    rcases List.mem_cons.mp hy with rfl | h1
    · exact (foldl_min_bounds xs y).1
    · exact (foldl_min_bounds xs x).2 y h1

lemma find?_first_split {α : Type} (p : α → Bool) (l : List α) (a : α)
    (h : l.find? p = some a) :
    p a = true ∧ ∃ l₁ l₂, l = l₁ ++ a :: l₂ ∧ ∀ x ∈ l₁, p x = false := by
  induction l with
  | nil => simp [List.find?] at h
  | cons b t ih =>
    by_cases hb : p b = true
    · rw [List.find?_cons_of_pos _ hb] at h
      obtain rfl := Option.some.inj h
      exact ⟨hb, [], t, rfl, by simp⟩
    · have hb' : p b = false := Bool.eq_false_iff.mpr hb
      rw [List.find?_cons_of_neg _ hb] at h
      obtain ⟨hpa, l₁, l₂, heq, hall⟩ := ih h
      refine ⟨hpa, b :: l₁, l₂, by rw [heq]; rfl, ?_⟩
      intro x hx
      rcases List.mem_cons.mp hx with rfl | hx
      · exact hb'
      · exact hall x hx

lemma find?_some_of_mem {α : Type} (p : α → Bool) (l : List α) (a : α)
    (ha : a ∈ l) (hpa : p a = true) : ∃ b, l.find? p = some b := by
  induction l with
  | nil => cases ha
  | cons b t ih =>
    by_cases hb : p b = true
    · exact ⟨b, List.find?_cons_of_pos _ hb⟩
    · rcases List.mem_cons.mp ha with rfl | ha'
      · exact absurd hpa hb
      · obtain ⟨c, hc⟩ := ih ha'
        exact ⟨c, by rw [List.find?_cons_of_neg _ hb]; exact hc⟩

lemma snd_mem_scores {l : Roster} {p : String × Int} (hp : p ∈ l) :
    p.2 ∈ scores l := List.mem_map_of_mem Prod.snd hp

lemma find_max_score_cons_eq (m : String × Int) (rest : Roster)
    (b : String × Int)
    (hb : (m :: rest).find?
      (fun p => p.2 == pymax (scores (m :: rest))) = some b) :
    find_max_score (m :: rest) = (b.1, pymax (scores (m :: rest))) := by
  have hdef : find_max_score (m :: rest) =
      match (m :: rest).find?
          (fun p => p.2 == pymax (scores (m :: rest))) with
      | some p => (p.1, pymax (scores (m :: rest)))
      | none => ("N/A", 0) := rfl
  rw [hdef, hb]

lemma find_min_score_cons_eq (m : String × Int) (rest : Roster)
    (b : String × Int)
    (hb : (m :: rest).find?
      (fun p => p.2 == pymin (scores (m :: rest))) = some b) :
    find_min_score (m :: rest) = (b.1, pymin (scores (m :: rest))) := by
  have hdef : find_min_score (m :: rest) =
      match (m :: rest).find?
          (fun p => p.2 == pymin (scores (m :: rest))) with
      | some p => (p.1, pymin (scores (m :: rest)))
      | none => ("N/A", 0) := rfl
  rw [hdef, hb]

/-- C2: for every non-empty roster, `find_max_score` returns an entry of
the roster whose score bounds every roster score from above, and it is the
first such entry in insertion order (every earlier entry has a strictly
different, hence smaller, score); `find_min_score` is symmetric for the
minimum; in particular on `[("A",90), ("B",90), ("C",40)]` the tie is
broken in favour of the first occurrence `("A", 90)`. -/
theorem find_extreme_first_occurrence (marks_dict : Roster)
    (h : marks_dict ≠ []) :
    ((∀ q ∈ marks_dict, q.2 ≤ (find_max_score marks_dict).2) ∧
     ∃ l₁ l₂, marks_dict = l₁ ++ find_max_score marks_dict :: l₂ ∧
       ∀ q ∈ l₁, q.2 ≠ (find_max_score marks_dict).2) ∧
    ((∀ q ∈ marks_dict, (find_min_score marks_dict).2 ≤ q.2) ∧
     ∃ l₁ l₂, marks_dict = l₁ ++ find_min_score marks_dict :: l₂ ∧
       ∀ q ∈ l₁, q.2 ≠ (find_min_score marks_dict).2) ∧
    find_max_score [("A", 90), ("B", 90), ("C", 40)] = ("A", 90) ∧
    find_min_score [("A", 90), ("B", 90), ("C", 40)] = ("C", 40) := by
  obtain ⟨m, rest, rfl⟩ : ∃ m rest, marks_dict = m :: rest := by
    cases marks_dict with
    | nil => exact absurd rfl h
    | cons m rest => exact ⟨m, rest, rfl⟩
  refine ⟨?_, ?_, by decide, by decide⟩
  · have hspec : pymax (scores (m :: rest)) ∈ scores (m :: rest) ∧
        ∀ y ∈ scores (m :: rest), y ≤ pymax (scores (m :: rest)) :=
      pymax_spec m.2 (scores rest)
    obtain ⟨q, hql, hq2⟩ := List.mem_map.mp hspec.1
    have hq : (q.2 == pymax (scores (m :: rest))) = true := by
      simpa using hq2
    obtain ⟨b, hb⟩ := find?_some_of_mem
      (fun p => p.2 == pymax (scores (m :: rest))) (m :: rest) q hql hq
    have heq := find_max_score_cons_eq m rest b hb
    obtain ⟨hpb, l₁, l₂, hsplit, hall⟩ := find?_first_split _ (m :: rest) b hb
    have hb2 : b.2 = pymax (scores (m :: rest)) := by simpa using hpb
    constructor
    · intro p hp
      rw [heq]
      exact hspec.2 p.2 (snd_mem_scores hp)
    · refine ⟨l₁, l₂, ?_, ?_⟩
      · have hbb : (b.1, pymax (scores (m :: rest))) = b := by
          rw [← hb2]
        rw [heq, hbb]
        exact hsplit
      · intro p hp
        rw [heq]
        have := hall p hp
        simpa using this
  · have hspec : pymin (scores (m :: rest)) ∈ scores (m :: rest) ∧
        ∀ y ∈ scores (m :: rest), pymin (scores (m :: rest)) ≤ y :=
      pymin_spec m.2 (scores rest)
    obtain ⟨q, hql, hq2⟩ := List.mem_map.mp hspec.1
    have hq : (q.2 == pymin (scores (m :: rest))) = true := by
      simpa using hq2
    obtain ⟨b, hb⟩ := find?_some_of_mem
      (fun p => p.2 == pymin (scores (m :: rest))) (m :: rest) q hql hq
    have heq := find_min_score_cons_eq m rest b hb
    obtain ⟨hpb, l₁, l₂, hsplit, hall⟩ := find?_first_split _ (m :: rest) b hb
    have hb2 : b.2 = pymin (scores (m :: rest)) := by simpa using hpb
    constructor
    · intro p hp
      rw [heq]
      exact hspec.2 p.2 (snd_mem_scores hp)
    · refine ⟨l₁, l₂, ?_, ?_⟩
      · have hbb : (b.1, pymin (scores (m :: rest))) = b := by
          rw [← hb2]
        rw [heq, hbb]
        exact hsplit
      · intro p hp
        rw [heq]
        have := hall p hp
        simpa using this

/-- Witness for `find_extreme_first_occurrence` on the tie roster
`[("A",90), ("B",90), ("C",40)]`. -/
theorem find_extreme_first_occurrence_witness :
    find_max_score [("A", 90), ("B", 90), ("C", 40)] = ("A", 90) ∧
    find_min_score [("A", 90), ("B", 90), ("C", 40)] = ("C", 40) :=
  ⟨(find_extreme_first_occurrence [("A", 90), ("B", 90), ("C", 40)]
      (by decide)).2.2.1,
   (find_extreme_first_occurrence [("A", 90), ("B", 90), ("C", 40)]
      (by decide)).2.2.2⟩

/-- C6: for every non-empty roster, `calculate_median` returns the standard
median of the score multiset: for any ascending sorted arrangement `s` of
the scores, the middle element when the count is odd and the arithmetic
mean of the two middle elements when the count is even; in particular the
median of scores 60,70,80,90 is 75 and of 60,70,80 is 70. -/
theorem calculate_median_standard (marks_dict : Roster) (h : marks_dict ≠ [])
    (s : List Int) (hperm : s.Perm (scores marks_dict))
    (hsort : s.Sorted (· ≤ ·)) :
    calculate_median marks_dict =
      (if s.length % 2 = 1 then ((s.getD (s.length / 2) 0 : Int) : Rat)
       else (((s.getD (s.length / 2 - 1) 0 + s.getD (s.length / 2) 0 :
         Int)) : Rat) / 2) ∧
    calculate_median [("a", 60), ("b", 70), ("c", 80), ("d", 90)] = 75 ∧
    calculate_median [("a", 60), ("b", 70), ("c", 80)] = 70 := by
  refine ⟨?_, ?_, ?_⟩
  · have hs : List.insertionSort (· ≤ ·) (scores marks_dict) = s :=
      List.eq_of_perm_of_sorted
        ((List.perm_insertionSort _ _).trans hperm.symm)
        (List.sorted_insertionSort _ _) hsort
    simp only [calculate_median, median_stat]
    rw [if_neg h, hs]
  · norm_num [calculate_median, median_stat, scores, List.insertionSort,
      List.orderedInsert]
    decide
  · norm_num [calculate_median, median_stat, scores, List.insertionSort,
      List.orderedInsert]
    decide

/-- Witness for `calculate_median_standard` on the even-count roster
`[("a",60), ("b",70), ("c",80), ("d",90)]` with its sorted score list. -/
theorem calculate_median_standard_witness :
    calculate_median [("a", 60), ("b", 70), ("c", 80), ("d", 90)] = 75 :=
  (calculate_median_standard [("a", 60), ("b", 70), ("c", 80), ("d", 90)]
    (by decide) [60, 70, 80, 90] (by decide) (by decide)).2.1

/-- C8 counterexample: on the spec's own end-to-end roster the code
computes median 75 (the mean of the two middle values 72 and 78 of the
sorted scores 39,55,65,72,78,83,92,95), not the claimed 73.5, and the
grade distribution {A:2, B:1, C:2, D:1, F:2} (Diana 83 is a B, Charlie 65
a D), not the claimed {A:2, B:2, C:2, D:0, F:2}. -/
theorem demo_roster_counterexample :
    calculate_median demoRoster = 75 ∧ (75 : Rat) ≠ 73.5 ∧
    (generate_grades_and_distribution demoRoster).2 =
      [("A", 2), ("B", 1), ("C", 2), ("D", 1), ("F", 2)] ∧
    ([("A", 2), ("B", 1), ("C", 2), ("D", 1), ("F", 2)] :
        List (String × Nat)) ≠
      [("A", 2), ("B", 2), ("C", 2), ("D", 0), ("F", 2)] := by
  refine ⟨?_, by norm_num, by decide, by decide⟩
  have hne : ¬(demoRoster = []) := by decide
  unfold calculate_median
  rw [if_neg hne]
  norm_num [demoRoster, median_stat, scores, List.insertionSort,
    List.orderedInsert]

/-- C8 (amended): on the roster {Alice:78, Bob:92, Charlie:65, Diana:83,
Evan:55, Fiona:95, George:39, Helen:72} in that insertion order, the
engine produces average 72.375, median 75.0, max ("Fiona", 95), min
("George", 39), grade distribution {A:2, B:1, C:2, D:1, F:2}, failed =
[George] only, and passed = the other seven students in roster order. -/
theorem demo_roster_end_to_end :
    calculate_average demoRoster = 72.375 ∧
    calculate_median demoRoster = 75 ∧
    find_max_score demoRoster = ("Fiona", 95) ∧
    find_min_score demoRoster = ("George", 39) ∧
    (generate_grades_and_distribution demoRoster).2 =
      [("A", 2), ("B", 1), ("C", 2), ("D", 1), ("F", 2)] ∧
    filter_pass_fail demoRoster =
      (["Alice", "Bob", "Charlie", "Diana", "Evan", "Fiona", "Helen"],
       ["George"]) := by
  have hne : ¬(demoRoster = []) := by decide
  refine ⟨?_, ?_, by decide, by decide, by decide, by decide⟩
  · unfold calculate_average
    rw [if_neg hne]
    norm_num [demoRoster, scores]
  · unfold calculate_median
    rw [if_neg hne]
    norm_num [demoRoster, median_stat, scores, List.insertionSort,
      List.orderedInsert]

lemma import_csv_rows_append (first : List String)
    (rows : List (List String)) (row : List String) :
    import_csv_rows ((first :: rows) ++ [row]) =
      process_row (import_csv_rows (first :: rows)) row := by
  simp [import_csv_rows, List.foldl_append]

lemma process_row_pair (marks : List (String × Int)) (name s : String)
    (mark : Int) (hparse : pyInt s = some mark) (h0 : 0 ≤ mark)
    (h100 : mark ≤ 100) :
    process_row marks [name, s] = pyInsert marks (pyStrip name) mark := by
  have hred : process_row marks [name, s] =
      match pyInt s with
      | some mark =>
          if 0 ≤ mark ∧ mark ≤ 100 then pyInsert marks (pyStrip name) mark
          else marks
      | none => marks := rfl
  rw [hred, hparse]
  exact if_pos ⟨h0, h100⟩

lemma pyInsert_existing_eq {β : Type} (d : List (String × β)) (k : String)
    (v : β) (h : k ∈ d.map Prod.fst) :
    pyInsert d k v = d.map (fun p => if p.1 = k then (k, v) else p) := by
  unfold pyInsert
  rw [if_pos]
  simp only [List.any_eq_true, beq_iff_eq]
  obtain ⟨p, hp, he⟩ := List.mem_map.mp h
  exact ⟨p, hp, he⟩

lemma pyInsert_existing_keys {β : Type} (d : List (String × β)) (k : String)
    (v : β) (h : k ∈ d.map Prod.fst) :
    (pyInsert d k v).map Prod.fst = d.map Prod.fst := by
  rw [pyInsert_existing_eq d k v h, List.map_map]
  apply List.map_congr_left
  intro p _
  by_cases hp : p.1 = k
  · simp [hp]
  · simp [hp]

lemma find?_map_update {β : Type} (d : List (String × β)) (k : String)
    (v : β) (h : k ∈ d.map Prod.fst) :
    (d.map (fun p => if p.1 = k then (k, v) else p)).find?
      (fun p => p.1 == k) = some (k, v) := by
  induction d with
  | nil => simp at h
  | cons a t ih =>
    by_cases ha : a.1 = k
    · simp only [List.map_cons, if_pos ha]
      exact List.find?_cons_of_pos _ (by simp)
    · have h' : k ∈ t.map Prod.fst := by
        rcases List.mem_map.mp h with ⟨p, hp, he⟩
        rcases List.mem_cons.mp hp with rfl | hp'
        · exact absurd he ha
        · exact he ▸ List.mem_map_of_mem Prod.fst hp'
      simp only [List.map_cons, if_neg ha]
      rw [List.find?_cons_of_neg _ (by simpa using ha)]
      exact ih h'

lemma pyInsert_lookup {β : Type} (d : List (String × β)) (k : String)
    (v : β) (h : k ∈ d.map Prod.fst) :
    dictLookup (pyInsert d k v) k = some v := by
  rw [pyInsert_existing_eq d k v h]
  unfold dictLookup
  rw [find?_map_update d k v h]
  rfl

/-- C9 counterexample: importing the CSV rows
`Name,Mark / A,1 / B,2 / A,3` yields the roster `[("A",3), ("B",2)]`: the
later duplicate record for "A" does overwrite the score, but "A" keeps its
original first-occurrence position, so the key order is `["A","B"]` and
not the `["B","A"]` that the claimed later-position rule would give. -/
theorem import_duplicate_position_counterexample :
    import_csv_rows [["Name", "Mark"], ["A", "1"], ["B", "2"], ["A", "3"]] =
      [("A", 3), ("B", 2)] ∧
    dictLookup (import_csv_rows
      [["Name", "Mark"], ["A", "1"], ["B", "2"], ["A", "3"]]) "A" =
      some 3 ∧
    rkeys (import_csv_rows
      [["Name", "Mark"], ["A", "1"], ["B", "2"], ["A", "3"]]) = ["A", "B"] ∧
    (["A", "B"] : List String) ≠ ["B", "A"] :=
  ⟨by decide, by decide, by decide, by decide⟩

/-- C9 (amended): in CSV import, when a valid record arrives for an
identifier that is already in the roster, the later record overwrites the
earlier one's score, but the identifier keeps its original roster position
(the position of its first occurrence): the key sequence is unchanged and
the stored score is the later one. -/
theorem import_duplicate_overwrite (first : List String)
    (rows : List (List String)) (name s : String) (mark : Int)
    (hparse : pyInt s = some mark) (h0 : 0 ≤ mark) (h100 : mark ≤ 100)
    (hname : pyStrip name ∈ rkeys (import_csv_rows (first :: rows))) :
    rkeys (import_csv_rows ((first :: rows) ++ [[name, s]])) =
      rkeys (import_csv_rows (first :: rows)) ∧
    dictLookup (import_csv_rows ((first :: rows) ++ [[name, s]]))
      (pyStrip name) = some mark := by
  rw [import_csv_rows_append,
    process_row_pair (import_csv_rows (first :: rows)) name s mark
      hparse h0 h100]
  exact ⟨pyInsert_existing_keys _ _ _ hname, pyInsert_lookup _ _ _ hname⟩

/-- Witness for `import_duplicate_overwrite`: appending the duplicate
record `A,3` to a file already containing `A,1` and `B,2`. -/
theorem import_duplicate_overwrite_witness :
    rkeys (import_csv_rows
      ((["Name", "Mark"] :: [["A", "1"], ["B", "2"]]) ++ [["A", "3"]])) =
      rkeys (import_csv_rows
        (["Name", "Mark"] :: [["A", "1"], ["B", "2"]])) ∧
    dictLookup (import_csv_rows
      ((["Name", "Mark"] :: [["A", "1"], ["B", "2"]]) ++ [["A", "3"]]))
      (pyStrip "A") = some 3 :=
  import_duplicate_overwrite ["Name", "Mark"] [["A", "1"], ["B", "2"]]
    "A" "3" 3 (by decide) (by decide) (by decide) (by decide)
